import Mathlib

/-
  Verification of pt5_uploader.py (GCOOS/pt5_uploader).

  The Python program is shallowly embedded: each relevant function of the
  source is translated into an executable Lean definition.  External effects
  (the S3 service, the local filesystem, thread scheduling) are made explicit
  as parameters or as inductive outcome types, so that every code path of the
  source is a branch of a total Lean function.
-/

namespace PT5

/-! ## String primitives

Mirrors of the Python string operations used by the source.  Lean `String`
is a structure holding a `List Char`, which matches Python's view of `str`
as a sequence of characters for the operations that matter here
(`startswith` / `endswith` on a single-character separator, concatenation,
`str.replace` of one character by another). -/

/-- Python `s.startswith(c)` for a single character `c`. -/
def startsWithChar (c : Char) (s : String) : Bool :=
  s.data.head? == some c

/-- Python `s.endswith(c)` for a single character `c`. -/
def endsWithChar (c : Char) (s : String) : Bool :=
  s.data.getLast? == some c

theorem data_append (a b : String) : (a ++ b).data = a.data ++ b.data := by
  cases a; cases b; rfl

/-! ## Key Resolver

`upload_files` (src/pt5_uploader.py:316 and :338) computes
`os.path.join(args.prefix, s3_key).replace('\\', '/')`. -/

/-- POSIX `os.path.join(a, b)` for two arguments, as in CPython's
`posixpath.join`: an absolute second component replaces the first; otherwise
a separator is inserted unless the first component is empty or already ends
with one. -/
def osPathJoin (a b : String) : String :=
  if startsWithChar '/' b then b
  else if a == "" || endsWithChar '/' a then a ++ b
  else a ++ "/" ++ b

/-- Python `s.replace('\\', '/')`: every backslash becomes a forward slash. -/
def replaceBackslash (s : String) : String :=
  ⟨s.data.map fun c => if c = '\\' then '/' else c⟩

/-- The key resolver of `upload_files` (src/pt5_uploader.py:316,338):
`os.path.join(pfx, key).replace('\\', '/')`. -/
def resolve (pfx key : String) : String :=
  replaceBackslash (osPathJoin pfx key)

/-! ## Filesystem model and File Enumerator

`get_files_to_upload` (src/pt5_uploader.py:193-220) walks the source path
with `Path.glob("*")` (direct children) or `Path.glob("**/*")` (children at
every depth) and keeps the entries for which `is_file()` holds, pairing each
with its path relative to the source.  The local directory tree is modelled
as an inductive tree of named files and directories (POSIX, so `str` of a
relative `Path` joins components with `/`). -/

/-- One entry of a directory: a file or a subdirectory with its children. -/
inductive FSNode where
  | file (name : String)
  | dir (name : String) (children : List FSNode)

mutual

/-- Relative paths (joined with `/`) of the files below one node, the node's
own name included — the recursive `glob("**/*")` filtered by `is_file()`. -/
def nodeFilesRec : FSNode → List String
  | .file n => [n]
  | .dir n cs => (listFilesRec cs).map fun r => n ++ "/" ++ r

/-- Relative paths of all files below a list of sibling nodes. -/
def listFilesRec : List FSNode → List String
  | [] => []
  | t :: ts => nodeFilesRec t ++ listFilesRec ts

end

/-- Names of the direct-child files only — `glob("*")` filtered by
`is_file()`: subdirectories are seen but contribute nothing. -/
def listFilesNonrec (ts : List FSNode) : List String :=
  ts.filterMap fun t =>
    match t with
    | .file n => some n
    | .dir _ _ => none

/-- A POSIX path from its components, joined with `/`. -/
def pathStr (comps : List String) : String :=
  String.intercalate "/" comps

/-- Python `Path.name`: the final path component. -/
def pathName (comps : List String) : String :=
  comps.getLastD ""

/-- The state of the source path handed to `get_files_to_upload`: an
existing file (given by its components), an existing directory with its
children, or a missing path. -/
inductive Source where
  | file (comps : List String)
  | dir (comps : List String) (children : List FSNode)
  | missing (comps : List String)

/-- Whether `Path(source).exists()` holds for the source. -/
def Source.existsOnDisk : Source → Bool
  | .missing _ => false
  | _ => true

/-- `get_files_to_upload` (src/pt5_uploader.py:193-220): raises
`FileNotFoundError` when the source does not exist; a single file maps to
one pair `(str(source_path), source_path.name)`; a directory maps each
globbed file to `(str(file_path), str(file_path.relative_to(source_path)))`. -/
def get_files_to_upload (src : Source) (recursive : Bool) :
    Except String (List (String × String)) :=
  match src with
  | .missing c => .error ("Source path does not exist: " ++ pathStr c)
  | .file c => .ok [(pathStr c, pathName c)]
  | .dir c children =>
      let rels := if recursive then listFilesRec children
                  else listFilesNonrec children
      .ok (rels.map fun rel => (pathStr c ++ "/" ++ rel, rel))

/-! ## Single-file upload

`upload_file` (src/pt5_uploader.py:222-252).  What the outside world does
when the function opens the local file and streams it to S3 is captured by
`UploadAttempt`; the observable effects (files opened, PUTs issued) are
returned next to the boolean result. -/

/-- What happens when one live upload is attempted: `open(local_path)`
raises, `upload_fileobj` raises, or the PUT succeeds. -/
inductive UploadAttempt where
  | openFail (err : String)
  | putFail (err : String)
  | putOk

/-- Observable side effects of one `upload_file` call: local paths opened
for reading and `(bucket, key)` network PUTs issued. -/
structure UploadEffects where
  opens : List String
  puts : List (String × String)
deriving DecidableEq

/-- `upload_file` (src/pt5_uploader.py:222-252): in dry-run mode it logs and
returns `True` before touching the filesystem or the network; otherwise it
opens the file and PUTs it, and any exception is caught and turned into
`False`.  Returns the result together with the effects performed. -/
def upload_file (local_path : String) (bucket : String) (s3_key : String)
    (dry_run : Bool) (att : UploadAttempt) : Bool × UploadEffects :=
  if dry_run then
    (true, ⟨[], []⟩)
  else
    match att with
    | .openFail _ => (false, ⟨[local_path], []⟩)
    | .putFail _ => (false, ⟨[local_path], [(bucket, s3_key)]⟩)
    | .putOk => (true, ⟨[local_path], [(bucket, s3_key)]⟩)

/-! ## Result collection

The `as_completed` loop of `upload_files` (src/pt5_uploader.py:366-381).
Each completed future yields a `TaskOutcome`: either `future.result()`
returns a boolean and `os.path.getsize` then succeeds or raises, or
`future.result()` itself raises.  The loop folds these into the mutable
`success` / `total_size` state, counting one progress-bar update per task. -/

/-- The outcome of one completed future as seen by the collection loop:
`res b sz` is `future.result() == b` followed by `os.path.getsize` returning
`sz`; `raised` is `future.result()` raising. -/
inductive TaskOutcome where
  | res (b : Bool) (sz : Except String Nat)
  | raised (err : String)

/-- The loop state of src/pt5_uploader.py:366-381: the `success` flag, the
running `total_size`, and how many futures have been processed (one
`pbar.update(1)` each). -/
structure CollectState where
  success : Bool
  totalSize : Nat
  processed : Nat
deriving DecidableEq

/-- One iteration of the `as_completed` loop (src/pt5_uploader.py:367-381):
a false result clears `success`; `getsize` adds the size on success and on
exception falls to the handler that clears `success`; a raising future also
falls to the handler.  Every branch counts the task as processed. -/
def collectOne (st : CollectState) : TaskOutcome → CollectState
  | .raised _ =>
      { st with success := false, processed := st.processed + 1 }
  | .res b sz =>
      let st1 := if b then st else { st with success := false }
      match sz with
      | .ok n =>
          { st1 with totalSize := st1.totalSize + n,
                     processed := st1.processed + 1 }
      | .error _ =>
          { st1 with success := false, processed := st1.processed + 1 }

/-- The whole collection loop, starting from `success = True`,
`total_size = 0` (src/pt5_uploader.py:326,331). -/
def collectResults (os : List TaskOutcome) : CollectState :=
  os.foldl collectOne ⟨true, 0, 0⟩

/-- Whether an outcome is a failed task in the claim's sense: its upload
raised or returned failure. -/
def taskFailed : TaskOutcome → Bool
  | .raised _ => true
  | .res b _ => !b

/-! ## Batched submission

`upload_files` submits tasks in slices `upload_tasks[i:i+1000]`
(src/pt5_uploader.py:346-361). -/

/-- The slices `l[i:i+1000]` for `i = 0, 1000, 2000, ...`, as produced by
the submission loop's `range(0, len(upload_tasks), batch_size)`. -/
def chunk1000 {α : Type} : List α → List (List α)
  | [] => []
  | x :: xs => ((x :: xs).take 1000) :: chunk1000 ((x :: xs).drop 1000)
termination_by l => l.length
decreasing_by
  simp only [List.length_drop, List.length_cons]
  omega

/-- Per-task dispatch, unbatched: every task submitted once, in order, and
its future's result recorded. -/
def dispatchUnbatched (bucket : String) (dry_run : Bool)
    (att : String → UploadAttempt) (tasks : List (String × String)) :
    List Bool :=
  tasks.map fun t => (upload_file t.1 bucket t.2 dry_run (att t.1)).1

/-- Per-task dispatch as the source performs it: tasks sliced into batches
of 1000, each batch submitted in order, all futures then collected. -/
def dispatchBatched (bucket : String) (dry_run : Bool)
    (att : String → UploadAttempt) (tasks : List (String × String)) :
    List Bool :=
  ((chunk1000 tasks).map fun batch =>
    batch.map fun t => (upload_file t.1 bucket t.2 dry_run (att t.1)).1).flatten

/-! ## The upload run

`upload_files` (src/pt5_uploader.py:283-390) end to end, with its dry-run
early return, and `main`'s translation of the boolean into an exit code
(src/pt5_uploader.py:414). -/

/-- What one run makes observable: the returned boolean, the network PUTs
issued, and the `local_path -> s3://bucket/full_s3_key` preview lines
printed by the dry-run branch (src/pt5_uploader.py:314-319). -/
structure RunOutput where
  success : Bool
  puts : List (String × String)
  previewed : List (String × String)

/-- `upload_files` (src/pt5_uploader.py:283-390).  `att` tells how the
service treats each local path in live mode and `sizes` is
`os.path.getsize`.  An enumeration error is caught by the outer handler and
yields `False`; an empty file list yields `True`; dry-run prints the
resolved destinations and yields `True` before any dispatch; live mode
resolves every key, dispatches each task (a future's `result()` never
raises, because `upload_file` catches everything), and folds the results. -/
def upload_files (src : Source) (recursive : Bool) (dry_run : Bool)
    (pfx : String) (bucket : String) (att : String → UploadAttempt)
    (sizes : String → Except String Nat) : RunOutput :=
  match get_files_to_upload src recursive with
  | .error _ => { success := false, puts := [], previewed := [] }
  | .ok files =>
    if files.isEmpty then
      { success := true, puts := [], previewed := [] }
    else if dry_run then
      { success := true, puts := [],
        previewed := files.map fun pr => (pr.1, resolve pfx pr.2) }
    else
      let upload_tasks := files.map fun pr => (pr.1, resolve pfx pr.2)
      let outcomes := upload_tasks.map fun t =>
        TaskOutcome.res (upload_file t.1 bucket t.2 false (att t.1)).1
          (sizes t.1)
      { success := (collectResults outcomes).success,
        puts := (upload_tasks.map fun t =>
          (upload_file t.1 bucket t.2 false (att t.1)).2.puts).flatten,
        previewed := [] }

/-- `main`'s `return 0 if success else 1` (src/pt5_uploader.py:414). -/
def runExitCode (success : Bool) : Nat :=
  if success then 0 else 1

/-! ## Summary Reporter

`print_summary_report` (src/pt5_uploader.py:262-281) computes the two
derived rates; durations are modelled as rationals. -/

/-- The rate computations of `print_summary_report`
(src/pt5_uploader.py:273-274): `avg_rate = total_size / duration if
duration > 0 else 0` and likewise `files_per_second`. -/
def summaryRates (total_files : Nat) (total_size : Nat) (duration : ℚ) :
    ℚ × ℚ :=
  ((if duration > 0 then (total_size : ℚ) / duration else 0),
   (if duration > 0 then (total_files : ℚ) / duration else 0))

/-! ## Credential Validator

`validate_aws_credentials` (src/pt5_uploader.py:70-103). -/

/-- How the service answers the `list_buckets()` probe: success, botocore's
`NoCredentialsError`, a `ClientError` carrying an error code, or any other
exception. -/
inductive ListBucketsOutcome where
  | success
  | noCredentials
  | clientError (code : String) (msg : String)
  | otherError (msg : String)
deriving DecidableEq

/-- `validate_aws_credentials` (src/pt5_uploader.py:70-103): `True` on a
successful `list_buckets()`; `NoCredentialsError`, every `ClientError`
(with per-code messaging only), and any other exception all give `False`. -/
def validate_aws_credentials (o : ListBucketsOutcome) : Bool :=
  match o with
  | .success => true
  | .noCredentials => false
  | .clientError code _ =>
      if code = "InvalidAccessKeyId" then false
      else if code = "SignatureDoesNotMatch" then false
      else false
  | .otherError _ => false

/-! ## Well-formed filesystems

A name a real directory entry can carry: nonempty, and containing neither
`/` (impossible in one POSIX component) nor `\` (impossible on Windows,
whose separator is what the `.replace('\\', '/')` normalizes). -/

/-- A well-formed directory-entry name. -/
def validName (n : String) : Prop :=
  n.data ≠ [] ∧ '/' ∉ n.data ∧ '\\' ∉ n.data

mutual

/-- Every name in the tree below a node is well formed. -/
def validNode : FSNode → Prop
  | .file n => validName n
  | .dir n cs => validName n ∧ validList cs

/-- Every name in a list of sibling trees is well formed. -/
def validList : List FSNode → Prop
  | [] => True
  | t :: ts => validNode t ∧ validList ts

end

/-- A well-formed source: all path components and tree names are valid, and
a file path has at least one component. -/
def validSource : Source → Prop
  | .file c => c ≠ [] ∧ ∀ n ∈ c, validName n
  | .dir _ cs => validList cs
  | .missing _ => True

/-- A relative key as the enumerator produces it: nonempty, not starting
with `/`, and free of backslashes. -/
def cleanKey (k : String) : Prop :=
  k.data ≠ [] ∧ k.data.head? ≠ some '/' ∧ '\\' ∉ k.data

theorem cleanKey_of_validName {n : String} (h : validName n) : cleanKey n := by
  obtain ⟨h1, h2, h3⟩ := h
  refine ⟨h1, ?_, h3⟩
  cases hd : n.data with
  | nil => simp
  | cons a as =>
      simp only [List.head?_cons, ne_eq, Option.some.injEq]
      intro hc
      subst hc
      exact h2 (by rw [hd]; exact List.mem_cons_self _ _)

theorem data_join_slash (n r : String) :
    (n ++ "/" ++ r).data = n.data ++ '/' :: r.data := by
  cases n; cases r; simp [String.data]

theorem cleanKey_join_slash {n r : String} (hn : validName n)
    (hr : cleanKey r) : cleanKey (n ++ "/" ++ r) := by
  obtain ⟨n1, n2, n3⟩ := hn
  refine ⟨?_, ?_, ?_⟩
  · rw [data_join_slash]
    simp
  · rw [data_join_slash]
    cases hd : n.data with
    | nil => exact absurd hd n1
    | cons a as =>
        simp only [List.cons_append, List.head?_cons, ne_eq, Option.some.injEq]
        intro hc
        subst hc
        exact n2 (by rw [hd]; exact List.mem_cons_self _ _)
  · rw [data_join_slash]
    intro hm
    rcases List.mem_append.mp hm with hm | hm
    · exact n3 hm
    · rcases List.mem_cons.mp hm with hm | hm
      · exact absurd hm (by decide)
      · exact hr.2.2 hm

mutual

theorem nodeFilesRec_clean (t : FSNode) (hv : validNode t) :
    ∀ k ∈ nodeFilesRec t, cleanKey k := by
  match t with
  | .file n =>
      intro k hk
      simp only [nodeFilesRec, List.mem_singleton] at hk
      exact hk ▸ cleanKey_of_validName hv
  | .dir n cs =>
      intro k hk
      simp only [nodeFilesRec, List.mem_map] at hk
      obtain ⟨r, hr, rfl⟩ := hk
      obtain ⟨hn, hcs⟩ := hv
      exact cleanKey_join_slash hn (listFilesRec_clean cs hcs r hr)

theorem listFilesRec_clean (ts : List FSNode) (hv : validList ts) :
    ∀ k ∈ listFilesRec ts, cleanKey k := by
  match ts with
  | [] =>
      intro k hk
      simp [listFilesRec] at hk
  | t :: rest =>
      intro k hk
      simp only [listFilesRec] at hk
      obtain ⟨h1, h2⟩ := hv
      rcases List.mem_append.mp hk with hk | hk
      · exact nodeFilesRec_clean t h1 k hk
      · exact listFilesRec_clean rest h2 k hk

end

theorem listFilesNonrec_clean (ts : List FSNode) (hv : validList ts) :
    ∀ k ∈ listFilesNonrec ts, cleanKey k := by
  induction ts with
  | nil => intro k hk; simp [listFilesNonrec] at hk
  | cons t rest ih =>
      intro k hk
      obtain ⟨h1, h2⟩ := hv
      simp only [listFilesNonrec, List.filterMap_cons] at hk
      match t with
      | .file n =>
          simp only [List.mem_cons] at hk
          rcases hk with rfl | hk
          · exact cleanKey_of_validName h1
          · exact ih h2 k hk
      | .dir n cs =>
          exact ih h2 k hk

theorem pathName_mem (c : List String) (h : c ≠ []) : pathName c ∈ c := by
  induction c with
  | nil => exact absurd rfl h
  | cons a as ih =>
      cases as with
      | nil => simp [pathName]
      | cons b bs =>
          have h2 : pathName (a :: b :: bs) = pathName (b :: bs) := by
            simp [pathName, List.getLastD]
          rw [h2]
          exact List.mem_cons_of_mem a (ih (by simp))

/-- Every relative key returned by `get_files_to_upload` on a well-formed
source is clean: nonempty, not starting with a separator, backslash-free. -/
theorem get_files_keys_clean (src : Source) (recursive : Bool)
    (hv : validSource src) (files : List (String × String))
    (hf : get_files_to_upload src recursive = .ok files) :
    ∀ pr ∈ files, cleanKey pr.2 := by
  match src with
  | .missing c => simp [get_files_to_upload] at hf
  | .file c =>
      simp only [get_files_to_upload, Except.ok.injEq] at hf
      subst hf
      intro pr hpr
      simp only [List.mem_singleton] at hpr
      subst hpr
      obtain ⟨hne, hall⟩ := hv
      exact cleanKey_of_validName (hall _ (pathName_mem c hne))
  | .dir c children =>
      simp only [get_files_to_upload, Except.ok.injEq] at hf
      subst hf
      intro pr hpr
      simp only [List.mem_map] at hpr
      obtain ⟨rel, hrel, rfl⟩ := hpr
      cases recursive with
      | true =>
          simp only [if_true] at hrel
          exact listFilesRec_clean children hv rel hrel
      | false =>
          simp at hrel
          exact listFilesNonrec_clean children hv rel hrel

/-! ## Further helper lemmas -/

theorem replaceBackslash_eq_self {s : String} (h : '\\' ∉ s.data) :
    replaceBackslash s = s := by
  have hm : ∀ l : List Char, '\\' ∉ l →
      l.map (fun c => if c = '\\' then '/' else c) = l := by
    intro l hl
    induction l with
    | nil => rfl
    | cons a as ih =>
        simp only [List.map_cons]
        rw [if_neg (fun hc => hl (by rw [← hc]; exact List.mem_cons_self _ _)),
          ih fun hm2 => hl (List.mem_cons_of_mem a hm2)]
  cases s with
  | mk d => exact congrArg String.mk (hm d h)

theorem empty_append_str (s : String) : "" ++ s = s := by
  cases s; rfl

theorem startsWithChar_replaceBackslash_false {s : String}
    (h1 : s.data.head? ≠ some '/') (h2 : s.data.head? ≠ some '\\') :
    startsWithChar '/' (replaceBackslash s) = false := by
  unfold startsWithChar replaceBackslash
  cases hd : s.data with
  | nil => simp
  | cons a as =>
      rw [hd] at h1 h2
      simp only [List.map_cons, List.head?_cons]
      have ha1 : a ≠ '/' := fun hc => h1 (by simp [hc])
      have ha2 : a ≠ '\\' := fun hc => h2 (by simp [hc])
      rw [if_neg ha2]
      simp [ha1]

theorem head_ne_of_not_mem {a : Char} {as : List Char} {c : Char}
    (h : c ∉ a :: as) : (a :: as).head? ≠ some c := by
  simp only [List.head?_cons, ne_eq, Option.some.injEq]
  intro hc
  exact h (by rw [hc]; exact List.mem_cons_self _ _)

/-- If the prefix does not begin with a separator and the key is clean, the
resolved remote key does not begin with `/`. -/
theorem resolve_no_leading_sep {pfx k : String}
    (hp1 : pfx.data.head? ≠ some '/') (hp2 : pfx.data.head? ≠ some '\\')
    (hk : cleanKey k) :
    startsWithChar '/' (resolve pfx k) = false := by
  obtain ⟨k1, k2, k3⟩ := hk
  have hks : startsWithChar '/' k = false := by
    unfold startsWithChar
    cases hd : k.data with
    | nil => simp
    | cons a as =>
        rw [hd] at k2
        simp only [List.head?_cons]
        have : a ≠ '/' := fun hc => k2 (by simp [hc])
        simp [this]
  unfold resolve osPathJoin
  rw [hks]
  simp only [Bool.false_eq_true, if_false]
  by_cases hpe : pfx = ""
  · subst hpe
    rw [if_pos (by decide), empty_append_str]
    apply startsWithChar_replaceBackslash_false k2
    intro hc
    cases hd : k.data with
    | nil => rw [hd] at hc; simp at hc
    | cons a as =>
        rw [hd] at hc
        simp only [List.head?_cons, Option.some.injEq] at hc
        exact k3 (by rw [hd, hc]; exact List.mem_cons_self _ _)
  · have hpd : pfx.data ≠ [] := by
      intro hc
      apply hpe
      cases pfx with
      | mk d => simp only at hc; rw [hc]
    obtain ⟨p, ps, hd⟩ := List.exists_cons_of_ne_nil hpd
    rw [hd] at hp1 hp2
    simp only [List.head?_cons] at hp1 hp2
    by_cases hcond : (pfx == "" || endsWithChar '/' pfx) = true
    · rw [if_pos hcond]
      apply startsWithChar_replaceBackslash_false
      · rw [data_append, hd]
        simp only [List.cons_append, List.head?_cons]
        exact hp1
      · rw [data_append, hd]
        simp only [List.cons_append, List.head?_cons]
        exact hp2
    · rw [if_neg hcond]
      apply startsWithChar_replaceBackslash_false
      · rw [data_join_slash, hd]
        simp only [List.cons_append, List.head?_cons]
        exact hp1
      · rw [data_join_slash, hd]
        simp only [List.cons_append, List.head?_cons]
        exact hp2

/-! ## Claims -/

/-- C1 counterexample: on the code, `resolve("a/", "/b")` yields `"/b"`, not
`"a/b"` — CPython's `os.path.join` discards the first argument when the
second is absolute. -/
theorem C1_counterexample :
    resolve "a/" "/b" = "/b" ∧ ("/b" : String) ≠ "a/b" := by
  constructor
  · rfl
  · decide

/-- C1 (amended): `resolve("a", "b")` and `resolve("a/", "b")` both yield
`"a/b"`, but `resolve("a/", "/b")` yields `"/b"` because a relative key with
a leading separator replaces the prefix entirely (`os.path.join`
semantics); an empty prefix yields any backslash-free relative key
unchanged. -/
theorem C1_resolve_join :
    resolve "a" "b" = "a/b" ∧ resolve "a/" "b" = "a/b" ∧
    resolve "a/" "/b" = "/b" ∧
    ∀ key : String, startsWithChar '/' key = false → '\\' ∉ key.data →
      resolve "" key = key := by
  refine ⟨rfl, rfl, rfl, ?_⟩
  intro key h1 h2
  unfold resolve osPathJoin
  rw [h1]
  simp only [Bool.false_eq_true, if_false]
  rw [if_pos (by decide), empty_append_str]
  exact replaceBackslash_eq_self h2

/-- C1 witness: the empty-prefix clause of `C1_resolve_join` applied at the
key `"x.txt"`. -/
theorem C1_witness : resolve "" "x.txt" = "x.txt" :=
  C1_resolve_join.2.2.2 "x.txt" (by decide) (by decide)

/-- C2 counterexample: `"b.txt"` is a relative key produced by enumeration,
yet with the prefix `"/p"` the resolved remote key `"/p/b.txt"` starts with
a path separator — the claim's "for every prefix" fails. -/
theorem C2_counterexample :
    get_files_to_upload (Source.file ["data", "b.txt"]) false =
      Except.ok [("data/b.txt", "b.txt")] ∧
    startsWithChar '/' (resolve "/p" "b.txt") = true := by
  constructor
  · rfl
  · rfl

/-- C2 (amended): for every prefix that does not itself begin with a path
separator (`/` or `\`), and every relative key produced by enumeration on a
well-formed source, the resolved remote key never starts with a path
separator. -/
theorem C2_remote_key_no_leading_sep (pfx : String)
    (hp1 : pfx.data.head? ≠ some '/') (hp2 : pfx.data.head? ≠ some '\\')
    (src : Source) (recursive : Bool) (hv : validSource src)
    (files : List (String × String))
    (hf : get_files_to_upload src recursive = .ok files) :
    ∀ pr ∈ files, startsWithChar '/' (resolve pfx pr.2) = false := by
  intro pr hpr
  exact resolve_no_leading_sep hp1 hp2
    (get_files_keys_clean src recursive hv files hf pr hpr)

/-- C2 witness: `C2_remote_key_no_leading_sep` at the prefix `"p"` and a
one-file directory. -/
theorem C2_witness :
    startsWithChar '/' (resolve "p" "a.txt") = false :=
  C2_remote_key_no_leading_sep "p" (by decide) (by decide)
    (Source.dir ["d"] [FSNode.file "a.txt"]) false
    ⟨⟨by decide, by decide, by decide⟩, trivial⟩
    [("d/a.txt", "a.txt")] rfl ("d/a.txt", "a.txt")
    (List.mem_cons_self _ _)

/-- C6: `get_files_to_upload` returns its `FileNotFoundError` exactly when
the source path does not exist; an existing path always yields a file list,
never an error. -/
theorem C6_enumerate_notfound (src : Source) (recursive : Bool) :
    ((∃ e, get_files_to_upload src recursive = .error e) ↔
      Source.existsOnDisk src = false) ∧
    (Source.existsOnDisk src = true →
      ∃ files, get_files_to_upload src recursive = .ok files) ∧
    (∀ c, src = Source.missing c →
      get_files_to_upload src recursive =
        .error ("Source path does not exist: " ++ pathStr c)) := by
  cases src <;> simp [get_files_to_upload, Source.existsOnDisk]

/-- C6 witness: `C6_enumerate_notfound` at a missing path and at an existing
file. -/
theorem C6_witness :
    get_files_to_upload (Source.missing ["gone"]) true =
      .error ("Source path does not exist: " ++ pathStr ["gone"]) :=
  (C6_enumerate_notfound (Source.missing ["gone"]) true).2.2 ["gone"] rfl

/-- C7: the rate computation of the summary never divides by zero: a zero
or negative duration gives both rates as 0, and a positive duration gives
`total_size / duration` and `total_files / duration`. -/
theorem C7_summary_rates (total_files total_size : Nat) (duration : ℚ) :
    (duration ≤ 0 → summaryRates total_files total_size duration = (0, 0)) ∧
    (0 < duration →
      summaryRates total_files total_size duration =
        ((total_size : ℚ) / duration, (total_files : ℚ) / duration)) := by
  constructor
  · intro h
    unfold summaryRates
    rw [if_neg (not_lt.mpr h), if_neg (not_lt.mpr h)]
  · intro h
    unfold summaryRates
    rw [if_pos h, if_pos h]

/-- C7 witness: `C7_summary_rates` at duration 0 and at duration 2. -/
theorem C7_witness :
    summaryRates 3 10 0 = (0, 0) ∧ summaryRates 3 10 2 = (5, 3 / 2) := by
  constructor
  · exact (C7_summary_rates 3 10 0).1 le_rfl
  · rw [(C7_summary_rates 3 10 2).2 (by norm_num)]
    norm_num

/-- C8: `validate_aws_credentials` returns `False` — and, being total,
throws nothing — for missing credentials, for every `ClientError`
(malformed or service-rejected credentials included), and for any other
exception; it returns `True` exactly when `list_buckets()` succeeds. -/
theorem C8_validate_credentials (o : ListBucketsOutcome) :
    (validate_aws_credentials o = true ↔ o = ListBucketsOutcome.success) ∧
    validate_aws_credentials ListBucketsOutcome.noCredentials = false ∧
    (∀ code msg,
      validate_aws_credentials (ListBucketsOutcome.clientError code msg) =
        false) ∧
    (∀ msg,
      validate_aws_credentials (ListBucketsOutcome.otherError msg) =
        false) := by
  refine ⟨?_, rfl, ?_, fun _ => rfl⟩
  · cases o <;> simp [validate_aws_credentials]
  · intro code msg
    simp [validate_aws_credentials]

/-- C10: in dry-run mode, `upload_file` returns `True` for every state of
the local file — even one whose `open` would fail — and performs no file
open and no network PUT. -/
theorem C10_dry_run_upload_file (local_path bucket s3_key : String)
    (att : UploadAttempt) :
    upload_file local_path bucket s3_key true att = (true, ⟨[], []⟩) := rfl

/-! ## Lemmas on the collection loop -/

theorem collectOne_processed (st : CollectState) (o : TaskOutcome) :
    (collectOne st o).processed = st.processed + 1 := by
  cases o with
  | raised e => rfl
  | res b sz => cases sz <;> cases b <;> rfl

theorem foldl_collect_processed (os : List TaskOutcome) (st : CollectState) :
    (os.foldl collectOne st).processed = st.processed + os.length := by
  induction os generalizing st with
  | nil => simp
  | cons o rest ih =>
      simp only [List.foldl_cons, List.length_cons]
      rw [ih, collectOne_processed]
      omega

theorem collectOne_success_sticky (st : CollectState) (o : TaskOutcome)
    (h : st.success = false) : (collectOne st o).success = false := by
  cases o with
  | raised e => rfl
  | res b sz => cases sz <;> cases b <;> simp [collectOne, h]

theorem foldl_collect_success_sticky (os : List TaskOutcome)
    (st : CollectState) (h : st.success = false) :
    (os.foldl collectOne st).success = false := by
  induction os generalizing st with
  | nil => simpa
  | cons o rest ih => exact ih _ (collectOne_success_sticky st o h)

theorem collectOne_failed (st : CollectState) (o : TaskOutcome)
    (h : taskFailed o = true) : (collectOne st o).success = false := by
  cases o with
  | raised e => rfl
  | res b sz =>
      cases b with
      | false => cases sz <;> rfl
      | true => simp [taskFailed] at h

theorem foldl_collect_mem_failed (os : List TaskOutcome) (st : CollectState)
    (h : ∃ o ∈ os, taskFailed o = true) :
    (os.foldl collectOne st).success = false := by
  induction os generalizing st with
  | nil => simp at h
  | cons o rest ih =>
      obtain ⟨o2, ho2, hf⟩ := h
      rcases List.mem_cons.mp ho2 with rfl | ho2
      · exact foldl_collect_success_sticky rest _ (collectOne_failed st o2 hf)
      · exact ih _ ⟨o2, ho2, hf⟩

/-- C3: if any one completed task failed — its future raised or its upload
returned failure — the run's success flag ends up false, yet the loop still
processes every task: the processed count equals the task count, so no
sibling is aborted and the run carries on to its summary. -/
theorem C3_one_failure_fails_run (os : List TaskOutcome)
    (h : ∃ o ∈ os, taskFailed o = true) :
    (collectResults os).success = false ∧
    (collectResults os).processed = os.length := by
  constructor
  · exact foldl_collect_mem_failed os ⟨true, 0, 0⟩ h
  · have := foldl_collect_processed os ⟨true, 0, 0⟩
    simpa using this

/-- C3 witness: `C3_one_failure_fails_run` on a three-task run whose second
task returned failure. -/
theorem C3_witness :
    (collectResults [TaskOutcome.res true (Except.ok 5),
        TaskOutcome.res false (Except.ok 3),
        TaskOutcome.raised "boom"]).success = false ∧
    (collectResults [TaskOutcome.res true (Except.ok 5),
        TaskOutcome.res false (Except.ok 3),
        TaskOutcome.raised "boom"]).processed = 3 :=
  C3_one_failure_fails_run _
    ⟨TaskOutcome.res false (Except.ok 3),
     List.mem_cons_of_mem _ (List.mem_cons_self _ _), rfl⟩

/-! ## Lemmas on enumeration membership -/

theorem mem_listFilesNonrec (cs : List FSNode) (k : String) :
    k ∈ listFilesNonrec cs ↔ FSNode.file k ∈ cs := by
  induction cs with
  | nil => simp [listFilesNonrec]
  | cons t ts ih =>
      cases t with
      | file n =>
          simp only [listFilesNonrec, List.filterMap_cons] at ih ⊢
          constructor
          · intro h
            rcases List.mem_cons.mp h with rfl | h
            · exact List.mem_cons_self _ _
            · exact List.mem_cons_of_mem _ (ih.mp h)
          · intro h
            rcases List.mem_cons.mp h with he | h
            · injection he with he
              subst he
              exact List.mem_cons_self _ _
            · exact List.mem_cons_of_mem _ (ih.mpr h)
      | dir n cs2 =>
          simp only [listFilesNonrec, List.filterMap_cons] at ih ⊢
          constructor
          · intro h
            exact List.mem_cons_of_mem _ (ih.mp h)
          · intro h
            rcases List.mem_cons.mp h with he | h
            · exact absurd he (by simp)
            · exact ih.mpr h

/-- C5: on a directory source without `recursive`, enumeration returns
exactly the direct-child files — each returned pair is a direct-child file
of the directory (so none comes from a subdirectory) and every direct-child
file is returned, under its base name; and a single-file source returns
exactly one pair whose relative key is the file's base name. -/
theorem C5_enumerate_nonrecursive (p fp : List String) (cs : List FSNode)
    (recursive : Bool) :
    (∀ files, get_files_to_upload (Source.dir p cs) false = .ok files →
      ((∀ pr ∈ files, FSNode.file pr.2 ∈ cs) ∧
       (∀ n, FSNode.file n ∈ cs → (pathStr p ++ "/" ++ n, n) ∈ files))) ∧
    get_files_to_upload (Source.file fp) recursive =
      .ok [(pathStr fp, pathName fp)] := by
  constructor
  · intro files hf
    simp only [get_files_to_upload, Except.ok.injEq] at hf
    subst hf
    constructor
    · intro pr hpr
      simp only [List.mem_map] at hpr
      obtain ⟨rel, hrel, rfl⟩ := hpr
      exact (mem_listFilesNonrec cs rel).mp (by simpa using hrel)
    · intro n hn
      have : n ∈ listFilesNonrec cs := (mem_listFilesNonrec cs n).mpr hn
      exact List.mem_map_of_mem _ (by simpa using this)
  · rfl

/-- C5 witness: `C5_enumerate_nonrecursive` on a directory holding one file
and one subdirectory that itself holds a file. -/
theorem C5_witness :
    ((∀ pr ∈ [("d/a.txt", "a.txt")],
        FSNode.file pr.2 ∈
          [FSNode.file "a.txt", FSNode.dir "sub" [FSNode.file "b.txt"]]) ∧
     (∀ n, FSNode.file n ∈
          [FSNode.file "a.txt", FSNode.dir "sub" [FSNode.file "b.txt"]] →
        (pathStr ["d"] ++ "/" ++ n, n) ∈ [("d/a.txt", "a.txt")])) ∧
    get_files_to_upload (Source.file ["data", "f.txt"]) true =
      .ok [(pathStr ["data", "f.txt"], pathName ["data", "f.txt"])] :=
  ⟨(C5_enumerate_nonrecursive ["d"] ["data", "f.txt"]
      [FSNode.file "a.txt", FSNode.dir "sub" [FSNode.file "b.txt"]] true).1
      [("d/a.txt", "a.txt")] rfl,
   (C5_enumerate_nonrecursive ["d"] ["data", "f.txt"]
      [FSNode.file "a.txt", FSNode.dir "sub" [FSNode.file "b.txt"]] true).2⟩

/-! ## Lemmas on batching -/

theorem chunk1000_flatten_aux {α : Type} :
    ∀ (n : Nat) (l : List α), l.length ≤ n → (chunk1000 l).flatten = l := by
  intro n
  induction n with
  | zero =>
      intro l hl
      have : l = [] := List.eq_nil_of_length_eq_zero (by omega)
      subst this
      simp [chunk1000]
  | succ n ih =>
      intro l hl
      cases l with
      | nil => simp [chunk1000]
      | cons x xs =>
          rw [chunk1000]
          simp only [List.flatten_cons]
          rw [ih ((x :: xs).drop 1000)
            (by simp only [List.length_drop, List.length_cons] at hl ⊢; omega)]
          exact List.take_append_drop 1000 (x :: xs)

theorem chunk1000_flatten {α : Type} (l : List α) :
    (chunk1000 l).flatten = l :=
  chunk1000_flatten_aux l.length l le_rfl

/-- C9: submitting the upload tasks in slices of 1000 yields exactly the
same per-task result list as submitting them all at once — batching changes
neither any task's success/failure nor anything derived from the results. -/
theorem C9_batched_eq_unbatched (bucket : String) (dry_run : Bool)
    (att : String → UploadAttempt) (tasks : List (String × String)) :
    dispatchBatched bucket dry_run att tasks =
      dispatchUnbatched bucket dry_run att tasks := by
  unfold dispatchBatched dispatchUnbatched
  rw [← List.map_flatten, chunk1000_flatten]

/-- C4: on any existing source path, a dry run returns overall success
(hence exit code 0), issues no network PUT, and lists every enumerated task
among its previewed would-succeed destinations. -/
theorem C4_dry_run_no_puts (src : Source) (recursive : Bool)
    (pfx bucket : String) (att : String → UploadAttempt)
    (sizes : String → Except String Nat)
    (h : Source.existsOnDisk src = true) :
    (upload_files src recursive true pfx bucket att sizes).success = true ∧
    (upload_files src recursive true pfx bucket att sizes).puts = [] ∧
    runExitCode
      (upload_files src recursive true pfx bucket att sizes).success = 0 ∧
    (∀ files, get_files_to_upload src recursive = .ok files →
      ∀ pr ∈ files, (pr.1, resolve pfx pr.2) ∈
        (upload_files src recursive true pfx bucket att sizes).previewed) := by
  obtain ⟨files, hok⟩ : ∃ fs, get_files_to_upload src recursive = .ok fs := by
    cases src with
    | missing c => simp [Source.existsOnDisk] at h
    | file c => exact ⟨_, rfl⟩
    | dir c cs => exact ⟨_, rfl⟩
  have hrun : upload_files src recursive true pfx bucket att sizes =
      if files.isEmpty then ⟨true, [], []⟩
      else ⟨true, [], files.map fun pr => (pr.1, resolve pfx pr.2)⟩ := by
    unfold upload_files
    rw [hok]
    by_cases he : files.isEmpty = true
    · simp [he]
    · simp [he]
  by_cases he : files.isEmpty = true
  · rw [hrun, if_pos he]
    refine ⟨rfl, rfl, rfl, ?_⟩
    intro fs hfs pr hpr
    rw [hok] at hfs
    injection hfs with hfs
    subst hfs
    rw [List.isEmpty_iff] at he
    subst he
    simp at hpr
  · rw [hrun, if_neg he]
    refine ⟨rfl, rfl, rfl, ?_⟩
    intro fs hfs pr hpr
    rw [hok] at hfs
    injection hfs with hfs
    subst hfs
    exact List.mem_map_of_mem _ hpr

/-- C4 witness: `C4_dry_run_no_puts` on an existing one-file directory. -/
theorem C4_witness :
    (upload_files (Source.dir ["d"] [FSNode.file "a.txt"]) false true
        "p" "bkt" (fun _ => UploadAttempt.putOk)
        (fun _ => Except.ok 7)).success = true ∧
    (upload_files (Source.dir ["d"] [FSNode.file "a.txt"]) false true
        "p" "bkt" (fun _ => UploadAttempt.putOk)
        (fun _ => Except.ok 7)).puts = [] ∧
    runExitCode (upload_files (Source.dir ["d"] [FSNode.file "a.txt"])
        false true "p" "bkt" (fun _ => UploadAttempt.putOk)
        (fun _ => Except.ok 7)).success = 0 ∧
    (∀ files, get_files_to_upload (Source.dir ["d"] [FSNode.file "a.txt"])
        false = .ok files →
      ∀ pr ∈ files, (pr.1, resolve "p" pr.2) ∈
        (upload_files (Source.dir ["d"] [FSNode.file "a.txt"]) false true
          "p" "bkt" (fun _ => UploadAttempt.putOk)
          (fun _ => Except.ok 7)).previewed) :=
  C4_dry_run_no_puts (Source.dir ["d"] [FSNode.file "a.txt"]) false
    "p" "bkt" (fun _ => UploadAttempt.putOk) (fun _ => Except.ok 7) rfl

end PT5
